import Mathlib

/-!
Verification of the audio-buffering and message-dispatch core of the
dev.echo backend (`backend/ipc/protocol.py`, `backend/ipc/server.py`,
`backend/transcription/service.py`), as a shallow embedding in Lean 4.

Modelling conventions:
* Python `float` values (audio samples, timestamps) are moved around by the
  code under study but never arithmetically combined, so they are modelled
  by `ℚ`, an arbitrary value type with decidable equality.
* JSON values are modelled by the inductive `Json`; `json.dumps` /
  `json.loads` round-tripping of a JSON-representable tree is the standard
  library's contract, so (de)serialization is modelled at the tree level.
  The result of `json.loads` on one wire line is `Option Json`
  (`none` = `json.JSONDecodeError`).
* `asyncio` code is single-threaded and cooperative; every `await` in the
  modelled paths is awaited inline, so each coroutine is translated as a
  sequential function, with `asyncio.Lock`-protected blocks appearing as
  atomic state transitions.
-/

namespace DevEcho

/-! ## Message protocol — `backend/ipc/protocol.py` -/

/-- The closed enumeration `MessageType` of `protocol.py`. -/
inductive MessageType where
  | audioData
  | transcriptionTag
  | transcriptionError
  | llmQuery
  | llmResponse
  | llmError
  | cloudLlmQuery
  | cloudLlmResponse
  | cloudLlmError
  | kbList
  | kbListResponse
  | kbAdd
  | kbUpdate
  | kbRemove
  | kbResponse
  | kbError
  | kbSyncStatus
  | kbSyncTrigger
  | ping
  | pong
  | shutdownTag
  | ack
  deriving DecidableEq, Repr

/-- The string value of each `MessageType` member (its wire tag). -/
def MessageType.value : MessageType → String
  | .audioData => "audio_data"
  | .transcriptionTag => "transcription"
  | .transcriptionError => "transcription_error"
  | .llmQuery => "llm_query"
  | .llmResponse => "llm_response"
  | .llmError => "llm_error"
  | .cloudLlmQuery => "cloud_llm_query"
  | .cloudLlmResponse => "cloud_llm_response"
  | .cloudLlmError => "cloud_llm_error"
  | .kbList => "kb_list"
  | .kbListResponse => "kb_list_response"
  | .kbAdd => "kb_add"
  | .kbUpdate => "kb_update"
  | .kbRemove => "kb_remove"
  | .kbResponse => "kb_response"
  | .kbError => "kb_error"
  | .kbSyncStatus => "kb_sync_status"
  | .kbSyncTrigger => "kb_sync_trigger"
  | .ping => "ping"
  | .pong => "pong"
  | .shutdownTag => "shutdown"
  | .ack => "ack"

/-- Lookup of a member by value, as the Python call `MessageType(s)` does;
`none` models the `ValueError` raised on an unknown tag string. -/
def MessageType.ofString : String → Option MessageType
  | "audio_data" => some .audioData
  | "transcription" => some .transcriptionTag
  | "transcription_error" => some .transcriptionError
  | "llm_query" => some .llmQuery
  | "llm_response" => some .llmResponse
  | "llm_error" => some .llmError
  | "cloud_llm_query" => some .cloudLlmQuery
  | "cloud_llm_response" => some .cloudLlmResponse
  | "cloud_llm_error" => some .cloudLlmError
  | "kb_list" => some .kbList
  | "kb_list_response" => some .kbListResponse
  | "kb_add" => some .kbAdd
  | "kb_update" => some .kbUpdate
  | "kb_remove" => some .kbRemove
  | "kb_response" => some .kbResponse
  | "kb_error" => some .kbError
  | "kb_sync_status" => some .kbSyncStatus
  | "kb_sync_trigger" => some .kbSyncTrigger
  | "ping" => some .ping
  | "pong" => some .pong
  | "shutdown" => some .shutdownTag
  | "ack" => some .ack
  | _ => none

/-- JSON values (the image of `json.loads`). -/
inductive Json where
  | null
  | bool (b : Bool)
  | num (q : ℚ)
  | str (s : String)
  | arr (elems : List Json)
  | obj (fields : List (String × Json))

/-- Key lookup in a JSON object's field list (Python `dict` subscript /
`dict.get` on the decoded object). -/
def jlookup (k : String) : List (String × Json) → Option Json
  | [] => none
  | (k2, v) :: rest => if k2 = k then some v else jlookup k rest

/-- `IPCMessage` of `protocol.py`: a type tag and a JSON payload. -/
structure IPCMessage where
  type : MessageType
  payload : Json

theorem IPCMessage.ext_iff2 {a b : IPCMessage} :
    a = b ↔ a.type = b.type ∧ a.payload = b.payload := by
  constructor
  · intro h; rw [h]; exact ⟨rfl, rfl⟩
  · intro ⟨h1, h2⟩; cases a; cases b; cases h1; cases h2; rfl

/-- `IPCMessage.to_json`: serialize to `{"type": ..., "payload": ...}`
(modelled at the JSON-tree level; `json.dumps` then renders the tree). -/
def IPCMessage.toJson (m : IPCMessage) : Json :=
  .obj [("type", .str m.type.value), ("payload", m.payload)]

/-- The ways decoding one frame can fail in
`IPCMessage.from_json` / the surrounding `json.loads`. -/
inductive DecodeErr where
  | badJson            -- json.loads raised JSONDecodeError
  | notAnObject        -- data["type"] on a non-dict JSON value
  | missingType        -- KeyError: no "type" key
  | typeNotString      -- MessageType(x) on a non-string value
  | unknownTag (s : String)  -- ValueError from MessageType(s)
  deriving DecidableEq, Repr

/-- `IPCMessage.from_json`, applied to the already-parsed JSON tree:
reads `data["type"]`, resolves it via `MessageType(...)` (unknown tags are
an error), and takes `data.get("payload", {})`. -/
def IPCMessage.fromJson : Json → Except DecodeErr IPCMessage
  | .obj fields =>
    match jlookup "type" fields with
    | some (.str s) =>
      match MessageType.ofString s with
      | some ty => .ok ⟨ty, (jlookup "payload" fields).getD (.obj [])⟩
      | none => .error (.unknownTag s)
    | some _ => .error .typeNotString
    | none => .error .missingType
  | _ => .error .notAnObject

/-- Result of `json.loads` on one newline-delimited frame:
`none` models a `json.JSONDecodeError`, `some j` a parsed tree.
`decodeLine` is then the whole decoding path of one frame
(`IPCMessage.from_json(line.decode().strip())`). -/
def decodeLine : Option Json → Except DecodeErr IPCMessage
  | none => .error .badJson
  | some j => IPCMessage.fromJson j

/-! ## `AudioDataMessage.from_payload` — `backend/ipc/protocol.py` -/

/-- Reassemble a byte sequence into 32-bit words, 4 bytes per word,
little-endian, as `struct.unpack(f'\x7bnum_samples\x7df', samples_bytes)`
lays them out (native byte order = little-endian on the supported
platforms); fewer than 4 trailing bytes yield no word
(`num_samples = len(samples_bytes) // 4`). -/
def bytesToWordsLE : List ℕ → List ℕ
  | b0 :: b1 :: b2 :: b3 :: rest =>
    (b0 + 2 ^ 8 * b1 + 2 ^ 16 * b2 + 2 ^ 24 * b3) :: bytesToWordsLE rest
  | _ => []

/-- The fields of an `audio_data` payload dict that `from_payload` reads.
`samples_base64` is modelled by the byte list the Base64 text decodes to
(`base64.b64decode` is a bijection onto byte strings); `none` models an
absent key. -/
structure AudioPayload where
  samples_base64 : Option (List ℕ)
  samples : Option (List ℚ)
  sample_rate : ℕ
  timestamp : ℚ
  source : String

/-- `AudioDataMessage` of `protocol.py`. -/
structure AudioDataMessage where
  samples : List ℚ
  sample_rate : ℕ
  timestamp : ℚ
  source : String
  deriving DecidableEq

/-- `AudioDataMessage.from_payload`. `f32` is the (opaque) interpretation
of a 32-bit pattern as an IEEE-754 float32 value, applied by
`struct.unpack`'s format `f` to each 4-byte group. The Base64 branch
errors (struct.error) when the byte count is not the exact size of the
format built from `num_samples = len // 4`, i.e. when `4 ∤ len`. -/
def AudioDataMessage.fromPayload (f32 : ℕ → ℚ) (p : AudioPayload) :
    Except String AudioDataMessage :=
  match p.samples_base64 with
  | some bytes =>
    if bytes.length % 4 = 0 then
      .ok { samples := (bytesToWordsLE bytes).map f32
            sample_rate := p.sample_rate
            timestamp := p.timestamp
            source := p.source }
    else
      .error "struct.error: unpack requires a buffer matching the format size"
  | none =>
    match p.samples with
    | some xs =>
      .ok { samples := xs, sample_rate := p.sample_rate
            timestamp := p.timestamp, source := p.source }
    | none =>
      .ok { samples := [], sample_rate := p.sample_rate
            timestamp := p.timestamp, source := p.source }

/-! ## Per-connection read loop — `IPCServer._handle_client`,
`backend/ipc/server.py`

The loop splits the byte stream on `\n` and decodes each complete line;
`json.JSONDecodeError` and any other exception from decoding (unknown
tag, wrong shape) are logged and that frame is skipped, and the loop
continues with the next frame. `readLoop` returns the messages that were
successfully decoded (and then handed to `_process_message`), in order. -/
def readLoop : List (Option Json) → List IPCMessage
  | [] => []
  | line :: rest =>
    match decodeLine line with
    | .ok m => m :: readLoop rest
    | .error _ => readLoop rest

/-! ## Message dispatch — `IPCServer._process_message`,
`backend/ipc/server.py` -/

/-- Which handler slots of `IPCServer` are registered (`is not None`).
Phase 1 slots and the Phase 2 slots that override them. -/
structure Handlers where
  audioHandler : Bool
  llmQueryHandler : Bool
  cloudLlmQueryHandler : Bool
  kbListHandler : Bool
  kbListPaginatedHandler : Bool
  kbAddHandler : Bool
  s3KbAddHandler : Bool
  kbUpdateHandler : Bool
  s3KbUpdateHandler : Bool
  kbRemoveHandler : Bool
  s3KbRemoveHandler : Bool
  kbSyncStatusHandler : Bool
  kbSyncTriggerHandler : Bool
  deriving DecidableEq

/-- Identity of a registered handler slot that `_process_message` can
invoke (the built-in `ping`→`pong` reply and the `shutdown` action are not
registered handlers). -/
inductive HandlerId where
  | audioHandler
  | llmQueryHandler
  | cloudLlmQueryHandler
  | kbListHandler
  | kbListPaginatedHandler
  | kbAddHandler
  | s3KbAddHandler
  | kbUpdateHandler
  | s3KbUpdateHandler
  | kbRemoveHandler
  | s3KbRemoveHandler
  | kbSyncStatusHandler
  | kbSyncTriggerHandler
  deriving DecidableEq

/-- The registered handlers `_process_message` executes for one inbound
message of the given type, in execution order — a direct translation of
its `if/elif` chain. For `kb_list`, `kb_add`, `kb_update` and `kb_remove`
the Phase 2 handler is checked first and the Phase 1 handler is the
`elif` fallback. -/
def executedHandlers (h : Handlers) : MessageType → List HandlerId
  | .ping => []
  | .audioData => if h.audioHandler then [.audioHandler] else []
  | .llmQuery => if h.llmQueryHandler then [.llmQueryHandler] else []
  | .cloudLlmQuery => if h.cloudLlmQueryHandler then [.cloudLlmQueryHandler] else []
  | .kbList =>
    if h.kbListPaginatedHandler then [.kbListPaginatedHandler]
    else if h.kbListHandler then [.kbListHandler] else []
  | .kbAdd =>
    if h.s3KbAddHandler then [.s3KbAddHandler]
    else if h.kbAddHandler then [.kbAddHandler] else []
  | .kbUpdate =>
    if h.s3KbUpdateHandler then [.s3KbUpdateHandler]
    else if h.kbUpdateHandler then [.kbUpdateHandler] else []
  | .kbRemove =>
    if h.s3KbRemoveHandler then [.s3KbRemoveHandler]
    else if h.kbRemoveHandler then [.kbRemoveHandler] else []
  | .kbSyncStatus => if h.kbSyncStatusHandler then [.kbSyncStatusHandler] else []
  | .kbSyncTrigger => if h.kbSyncTriggerHandler then [.kbSyncTriggerHandler] else []
  | .shutdownTag => []
  | _ => []

/-! ## Broadcast — `IPCServer.broadcast`, `backend/ipc/server.py` -/

/-- A connected client writer: its identity and whether `writer.write` /
`writer.drain` raises for it. -/
structure Conn where
  id : ℕ
  failing : Bool
  deriving DecidableEq

/-- Observable effect of one `broadcast` call. -/
structure BroadcastEffect where
  /-- The `(client id, encoded data)` writes that completed, in order. -/
  writes : List (ℕ × Json)
  /-- `self.clients` after the call. -/
  clientsAfter : List Conn
  /-- Clients closed by the call. -/
  closed : List ℕ
  /-- Number of write failures logged. -/
  errorsLogged : ℕ

/-- The per-client loop of `broadcast`: write the (already encoded) data
to each client; a raising client is logged and the loop moves on. -/
def broadcastLoop (data : Json) : List Conn → List (ℕ × Json) × ℕ
  | [] => ([], 0)
  | c :: rest =>
    let (ws, errs) := broadcastLoop data rest
    if c.failing then (ws, errs + 1) else ((c.id, data) :: ws, errs)

/-- `broadcast(message)`: encode once (`data` is computed once, before the
loop), then write to every client in `self.clients`; the `except` branch
only logs — it does not remove the client from `self.clients` and does
not close it. -/
def broadcast (clients : List Conn) (message : IPCMessage) : BroadcastEffect :=
  let data := message.toJson
  let (ws, errs) := broadcastLoop data clients
  { writes := ws
    clientsAfter := clients
    closed := []
    errorsLogged := errs }

/-! ## Audio buffering — `TranscriptionService`,
`backend/transcription/service.py`

`self._buffers` is a `defaultdict(list)` keyed by `AudioSource`;
`self._buffer_timestamps` is a plain dict whose key may be absent. All
accesses are serialized by `self._lock`, so each locked block is one
atomic state transition. Samples are `float` values that the service only
moves, never computes with; they are modelled by `ℚ` (`Sample`). -/

/-- Audio sample values (float32 in the source, moved opaquely). -/
abbrev Sample : Type := ℚ

/-- `AudioSource` of `backend/transcription/engine.py`. -/
inductive AudioSource where
  | system
  | microphone
  deriving DecidableEq

/-- The per-source buffering state: `self._buffers[source]` and the
optional entry `self._buffer_timestamps[source]` (`none` = key absent). -/
structure SourceBuffer where
  samples : List Sample
  timestamp : Option ℚ
  deriving DecidableEq

/-- The locked block of `process_audio` for one source: extend the
buffer, and record the chunk's timestamp only if no timestamp is
currently tracked for the source. -/
def appendAudio (st : SourceBuffer) (chunk : List Sample) (timestamp : ℚ) :
    SourceBuffer :=
  { samples := st.samples ++ chunk
    timestamp :=
      match st.timestamp with
      | some t => some t
      | none => some timestamp }

/-- The locked block of `_check_and_process_buffers` for one source, with
the threshold `W` as a parameter (the code computes
`W = int(SAMPLE_RATE * BUFFER_DURATION_SECONDS) = 32000`) and `now` the
value of `time.time()`. If the buffer holds at least `W` samples: take
the first `W` as the window, keep the rest, pop the recorded timestamp
(defaulting to `now` when absent), and re-stamp a non-empty remainder
with `now`. Otherwise nothing is touched. Returns the drained window (if
any) with its start timestamp, and the new state. -/
def tryDrain (W : ℕ) (st : SourceBuffer) (now : ℚ) :
    Option (List Sample × ℚ) × SourceBuffer :=
  if W ≤ st.samples.length then
    let window := st.samples.take W
    let rest := st.samples.drop W
    let ts := st.timestamp.getD now
    (some (window, ts),
     { samples := rest
       timestamp := if rest.isEmpty then none else some now })
  else
    (none, st)

/-- The code's buffer threshold:
`int(SAMPLE_RATE * BUFFER_DURATION_SECONDS) = int(16000 * 2.0)`. -/
def BUFFER_THRESHOLD : ℕ := 32000

/-- The code's minimum flush length:
`MIN_BUFFER_SAMPLES = int(SAMPLE_RATE * 0.5) = int(16000 * 0.5)`. -/
def MIN_BUFFER_SAMPLES : ℕ := 8000

/-- One operation on a single source's buffer: an ingestion call
(`process_audio`) or one scheduler buffer check (`_check_and_process_buffers`
for that source). -/
inductive BufOp where
  | append (chunk : List Sample) (timestamp : ℚ)
  | drain (W : ℕ) (now : ℚ)

/-- Accounting state for a run of buffer operations on one source: the
live buffer plus the concatenations of everything ever drained and
everything ever appended. -/
structure TraceState where
  buf : SourceBuffer
  drained : List Sample
  appended : List Sample
  deriving DecidableEq

/-- Initial state: `defaultdict(list)` yields an empty buffer, and no
timestamp key exists. -/
def initTrace : TraceState :=
  { buf := ⟨[], none⟩, drained := [], appended := [] }

/-- Execute one buffer operation, keeping the drained/appended ledgers. -/
def stepOp (s : TraceState) : BufOp → TraceState
  | .append chunk t =>
    { s with
      buf := appendAudio s.buf chunk t
      appended := s.appended ++ chunk }
  | .drain W now =>
    let (res, buf2) := tryDrain W s.buf now
    { s with
      buf := buf2
      drained := s.drained ++ (match res with
        | some (w, _) => w
        | none => []) }

/-- Run a sequence of buffer operations from the initial state. -/
def runOps (ops : List BufOp) : TraceState :=
  ops.foldl stepOp initTrace

/-! ## Scheduler event traces — `_process_loop` /
`_check_and_process_buffers`, `backend/transcription/service.py`

`_process_loop` is one coroutine: each tick it runs
`_check_and_process_buffers`, which iterates sources in `list(AudioSource)`
order (system, then microphone), drains a ready window inside the lock and
then `await`s `_transcribe_buffer` to completion before examining the next
source; the next tick starts only after the previous tick's body has
returned. Events record drains and the start/finish of each transcription
call. -/

/-- Buffers of both sources (`self._buffers` restricted to the closed
`AudioSource` enumeration). -/
structure ServiceBuffers where
  system : SourceBuffer
  microphone : SourceBuffer
  deriving DecidableEq

def ServiceBuffers.get (s : ServiceBuffers) : AudioSource → SourceBuffer
  | .system => s.system
  | .microphone => s.microphone

/-- Observable scheduler events. -/
inductive SchedEvent where
  | drainEv (src : AudioSource) (window : List Sample)
  | startCall (src : AudioSource)
  | finishCall (src : AudioSource)
  deriving DecidableEq

/-- One iteration of the `for source in list(AudioSource)` loop body: the
locked drain, then — because `_transcribe_buffer` is awaited inline — the
transcription call runs from start to finish before the iteration ends. -/
def tickSource (W : ℕ) (src : AudioSource) (st : SourceBuffer) (now : ℚ) :
    List SchedEvent × SourceBuffer :=
  match tryDrain W st now with
  | (some (w, _ts), st2) =>
    ([.drainEv src w, .startCall src, .finishCall src], st2)
  | (none, st2) => ([], st2)

/-- One tick of `_check_and_process_buffers`: system first, then
microphone, strictly sequentially. -/
def tick (W : ℕ) (s : ServiceBuffers) (now : ℚ) :
    List SchedEvent × ServiceBuffers :=
  let (e1, b1) := tickSource W .system s.system now
  let (e2, b2) := tickSource W .microphone s.microphone now
  (e1 ++ e2, ⟨b1, b2⟩)

/-- The event trace of a run of `_process_loop` ticks at the given tick
times. -/
def runTicks (W : ℕ) (s : ServiceBuffers) : List ℚ → List SchedEvent
  | [] => []
  | now :: rest =>
    let (es, s2) := tick W s now
    es ++ runTicks W s2 rest

/-- A scheduler event trace is serialized when every transcription call
that starts is the next event to finish: nothing at all — no drain, no
other call, no next tick — happens between a call's start and its
finish. -/
def Serialized (l : List SchedEvent) : Prop :=
  ∀ i src, l.get? i = some (.startCall src) →
    l.get? (i + 1) = some (.finishCall src)

/-! ## Transcription of one window — `_transcribe_buffer`,
`backend/transcription/service.py` -/

/-- `TranscriptionResult` of `backend/transcription/engine.py`. -/
structure TranscriptionResult where
  text : String
  source : AudioSource
  timestamp : ℚ
  confidence : ℚ
  deriving DecidableEq

/-- Behavior of the external engine on one window: either a result or a
raised exception (`.error` with its message). -/
def EngineBehavior : Type :=
  List Sample → AudioSource → ℚ → Except String TranscriptionResult

/-- Observable outcome of one `_transcribe_buffer` call. -/
structure TranscribeOutcome where
  /-- The result passed to the `on_transcription` callback, if any. -/
  emitted : Option TranscriptionResult
  /-- Whether the `except` branch logged a transcription error. -/
  errorLogged : Bool
  deriving DecidableEq

/-- `_transcribe_buffer(samples, source, timestamp)`: call the engine; on
success emit the result iff `result.text` is truthy (non-empty); on an
exception, log and emit nothing — the exception is swallowed. -/
def transcribeBuffer (engine : EngineBehavior) (samples : List Sample)
    (source : AudioSource) (timestamp : ℚ) : TranscribeOutcome :=
  match engine samples source timestamp with
  | .ok r =>
    if r.text = "" then { emitted := none, errorLogged := false }
    else { emitted := some r, errorLogged := false }
  | .error _ => { emitted := none, errorLogged := true }

/-- Successive windows of one source are each processed by their own
`_transcribe_buffer` call, in drain order. -/
def processWindows (engine : EngineBehavior) :
    List (List Sample × AudioSource × ℚ) → List TranscribeOutcome
  | [] => []
  | (s, src, t) :: rest =>
    transcribeBuffer engine s src t :: processWindows engine rest

/-! ## Shutdown flush — `_flush_buffers`, `backend/transcription/service.py` -/

/-- The loop body of `_flush_buffers` for one source: inside the lock the
whole buffer is extracted, its timestamp popped (defaulting to
`time.time()`), and the buffer reset to `[]`; outside the lock the
extracted audio is transcribed only when it holds at least
`MIN_BUFFER_SAMPLES` samples. Returns the transcription call made (if
any) and the new per-source state. -/
def flushSource (st : SourceBuffer) (now : ℚ) :
    Option (List Sample × ℚ) × SourceBuffer :=
  let buffer := st.samples
  let ts := st.timestamp.getD now
  (if MIN_BUFFER_SAMPLES ≤ buffer.length then some (buffer, ts) else none,
   ⟨[], none⟩)

/-- `_flush_buffers`: iterate sources in `list(AudioSource)` order,
flushing each. Returns the transcription calls made, in order, and the
final buffers. -/
def flushBuffers (s : ServiceBuffers) (now : ℚ) :
    List (AudioSource × List Sample × ℚ) × ServiceBuffers :=
  let (c1, b1) := flushSource s.system now
  let (c2, b2) := flushSource s.microphone now
  ((match c1 with
    | some (w, t) => [(.system, w, t)]
    | none => []) ++
   (match c2 with
    | some (w, t) => [(.microphone, w, t)]
    | none => []),
   ⟨b1, b2⟩)

/-! ## Theorems -/

/-- C9: for every message with a registered tag (all members of the closed
`MessageType` enumeration are registered) and JSON-representable payload,
decoding the encoded wire form yields the original message — both the
type tag and the payload are preserved. -/
theorem C9_frame_round_trip (m : IPCMessage) :
    IPCMessage.fromJson m.toJson = .ok m := by
  cases m with
  | mk ty payload => cases ty <;> rfl

/-- C1: `try_drain` (the locked buffer-check step of
`_check_and_process_buffers`, for any source and any window size `W`)
returns a window iff the buffered count is at least `W`; a returned
window is exactly the first `W` buffered samples (so has length `W`),
paired with the recorded start timestamp whenever one is recorded, with
the remaining buffer the rest of the FIFO; when nothing is returned the
buffer state is unchanged. -/
theorem C1_try_drain_window (W : ℕ) (st : SourceBuffer) (now : ℚ) :
    ((tryDrain W st now).1.isSome ↔ W ≤ st.samples.length) ∧
    (∀ w ts, (tryDrain W st now).1 = some (w, ts) →
      w = st.samples.take W ∧ w.length = W ∧
      (∀ t0, st.timestamp = some t0 → ts = t0) ∧
      (tryDrain W st now).2.samples = st.samples.drop W) ∧
    ((tryDrain W st now).1 = none → (tryDrain W st now).2 = st) := by
  by_cases h : W ≤ st.samples.length
  · refine ⟨by simp [tryDrain, h], ?_, ?_⟩
    · intro w ts hw
      simp only [tryDrain, if_pos h, Option.some.injEq, Prod.mk.injEq] at hw
      obtain ⟨hw1, hw2⟩ := hw
      refine ⟨hw1.symm, ?_, ?_, ?_⟩
      · rw [hw1.symm, List.length_take]
        exact Nat.min_eq_left h
      · intro t0 ht0
        rw [← hw2, ht0]
        rfl
      · simp [tryDrain, h]
    · intro hnone
      simp [tryDrain, h] at hnone
  · refine ⟨by simp [tryDrain, h], ?_, ?_⟩
    · intro w ts hw
      simp [tryDrain, h] at hw
    · intro _
      simp [tryDrain, h]

/-- Witness for C1 at a concrete input: draining `W = 2` from buffer
`[1, 2, 3]` with recorded timestamp `5` returns the first two samples
with timestamp `5` and leaves `[3]`. -/
theorem C1_try_drain_window_witness :
    (tryDrain 2 ⟨[1, 2, 3], some 5⟩ 9).1 = some ([1, 2], 5) ∧
    ([1, 2] : List Sample) = ([1, 2, 3] : List Sample).take 2 ∧
    ([1, 2] : List Sample).length = 2 ∧
    (5 : ℚ) = 5 ∧
    (tryDrain 2 ⟨[1, 2, 3], some 5⟩ 9).2.samples = ([1, 2, 3] : List Sample).drop 2 := by
  have h := (C1_try_drain_window 2 ⟨[1, 2, 3], some 5⟩ 9).2.1 [1, 2] 5 (by decide)
  exact ⟨by decide, h.1, h.2.1, h.2.2.1 5 rfl, h.2.2.2⟩

/-- One buffer operation preserves the ledger equation: what was drained,
followed by what is still buffered, is exactly what was appended. -/
theorem stepOp_preserves_ledger (s : TraceState) (op : BufOp)
    (h : s.drained ++ s.buf.samples = s.appended) :
    (stepOp s op).drained ++ (stepOp s op).buf.samples = (stepOp s op).appended := by
  cases op with
  | append chunk t =>
    simp only [stepOp, appendAudio]
    rw [← h, List.append_assoc]
  | drain W now =>
    by_cases hW : W ≤ s.buf.samples.length
    · simp only [stepOp, tryDrain, if_pos hW]
      rw [← h, List.append_assoc, List.take_append_drop]
    · simp only [stepOp, tryDrain, if_neg hW]
      simpa using h

/-- The ledger equation holds after any run of operations from any state
satisfying it. -/
theorem foldl_preserves_ledger (ops : List BufOp) :
    ∀ s : TraceState, s.drained ++ s.buf.samples = s.appended →
      (ops.foldl stepOp s).drained ++ (ops.foldl stepOp s).buf.samples =
        (ops.foldl stepOp s).appended := by
  induction ops with
  | nil => intro s h; exact h
  | cons op rest ih =>
    intro s h
    exact ih (stepOp s op) (stepOp_preserves_ledger s op h)

/-- C2 (amended): for any sequence of appends and drains on one source,
the concatenation of all samples ever drained, followed by the samples
still buffered, equals the concatenation of all appended samples in
arrival order — no sample is dropped, duplicated, or reordered; in
particular, whenever the drains have emptied the buffer, the drained
concatenation equals the appended concatenation exactly. -/
theorem C2_fifo_ledger (ops : List BufOp) :
    (runOps ops).drained ++ (runOps ops).buf.samples = (runOps ops).appended ∧
    ((runOps ops).buf.samples = [] →
      (runOps ops).drained = (runOps ops).appended) := by
  have h : (runOps ops).drained ++ (runOps ops).buf.samples = (runOps ops).appended :=
    foldl_preserves_ledger ops initTrace rfl
  refine ⟨h, fun hemp => ?_⟩
  rw [← h, hemp, List.append_nil]

/-- Witness for C2 (amended) at a concrete input: appending `[1, 2]` and
draining a window of 2 empties the buffer and the drained samples equal
the appended ones. -/
theorem C2_fifo_ledger_witness :
    (runOps [.append [1, 2] 0, .drain 2 5]).buf.samples = [] ∧
    (runOps [.append [1, 2] 0, .drain 2 5]).drained =
      (runOps [.append [1, 2] 0, .drain 2 5]).appended := by
  exact ⟨by decide, (C2_fifo_ledger [.append [1, 2] 0, .drain 2 5]).2 (by decide)⟩

/-- C2 counterexample: after appending one sample and running one drain
check with window size 2, nothing has ever been drained (the sample sits
in the buffer), so the concatenation of all drained samples (`[]`) is not
the concatenation of all appended samples (`[1]`): the claim's equality
fails whenever the drains do not exhaust the buffer. -/
theorem C2_counterexample :
    (runOps [.append [1] 0, .drain 2 0]).drained = [] ∧
    (runOps [.append [1] 0, .drain 2 0]).appended = [1] ∧
    (runOps [.append [1] 0, .drain 2 0]).drained ≠
      (runOps [.append [1] 0, .drain 2 0]).appended := by
  exact ⟨by decide, by decide, by decide⟩

/-- The empty trace is serialized. -/
theorem serialized_nil : Serialized [] := by
  intro i src h
  simp [List.get?] at h

/-- Prepending one drain-call-finish block keeps a trace serialized. -/
theorem serialized_cons3 (src : AudioSource) (w : List Sample)
    (l : List SchedEvent) (h : Serialized l) :
    Serialized (.drainEv src w :: .startCall src :: .finishCall src :: l) := by
  intro i src' hi
  match i with
  | 0 => simp [List.get?] at hi
  | 1 =>
    simp only [List.get?] at hi ⊢
    rw [Option.some.injEq, SchedEvent.startCall.injEq] at hi
    rw [hi]
  | 2 => simp [List.get?] at hi
  | (n + 3) => exact h n src' hi

/-- Prepending one source's tick events keeps a trace serialized: the
block is empty (no ready window) or a complete drain-start-finish
sequence (the call is awaited inline). -/
theorem serialized_tickSource_append (W : ℕ) (src : AudioSource)
    (st : SourceBuffer) (now : ℚ) (l : List SchedEvent) (h : Serialized l) :
    Serialized ((tickSource W src st now).1 ++ l) := by
  rcases htd : tryDrain W st now with ⟨res, st2⟩
  cases res with
  | none => simpa [tickSource, htd] using h
  | some p =>
    rcases p with ⟨w, ts⟩
    simpa [tickSource, htd] using serialized_cons3 src w l h

/-- Every trace the process loop can generate is serialized. -/
theorem serialized_runTicks (W : ℕ) (times : List ℚ) :
    ∀ s : ServiceBuffers, Serialized (runTicks W s times) := by
  induction times with
  | nil => intro s; simpa [runTicks] using serialized_nil
  | cons now rest ih =>
    intro s
    have h2 : Serialized ((tickSource W .microphone s.microphone now).1 ++
        runTicks W (tick W s now).2 rest) :=
      serialized_tickSource_append W .microphone s.microphone now _
        (ih (tick W s now).2)
    have h1 : Serialized ((tickSource W .system s.system now).1 ++
        ((tickSource W .microphone s.microphone now).1 ++
          runTicks W (tick W s now).2 rest)) :=
      serialized_tickSource_append W .system s.system now _ h2
    simpa [runTicks, tick, List.append_assoc] using h1

/-- C3 (amended): in every trace the scheduler can generate, transcription
calls are globally serialized — a started call is finished by the very
next event, so no drain or other call (for the same or a different
source, or from a later tick) happens while a call is in flight; in
particular no two calls for the same source are ever concurrently in
flight, and any two calls (for any sources) are disjoint: the earlier
one finishes strictly before the later one starts. -/
theorem C3_single_flight (W : ℕ) (s : ServiceBuffers) (times : List ℚ) :
    (∀ i src, (runTicks W s times).get? i = some (.startCall src) →
      (runTicks W s times).get? (i + 1) = some (.finishCall src)) ∧
    (∀ i j src src', i < j →
      (runTicks W s times).get? i = some (.startCall src) →
      (runTicks W s times).get? j = some (.startCall src') →
      i + 1 < j ∧ (runTicks W s times).get? (i + 1) = some (.finishCall src)) := by
  have hser : Serialized (runTicks W s times) := serialized_runTicks W times s
  refine ⟨hser, ?_⟩
  intro i j src src' hij hi hj
  have hfin := hser i src hi
  refine ⟨?_, hfin⟩
  rcases Nat.lt_or_ge (i + 1) j with h | h
  · exact h
  · exfalso
    have hji : j = i + 1 := Nat.le_antisymm h (Nat.succ_le_of_lt hij)
    rw [hji, hfin] at hj
    simp at hj

/-- Witness for C3 (amended) at a concrete input: one tick with both
sources ready (window size 2); the system call starts at index 1 and the
microphone call starts at index 4; the system call has already finished
at index 2, before the microphone call starts. -/
theorem C3_single_flight_witness :
    1 + 1 < 4 ∧
    (runTicks 2 ⟨⟨[1, 2, 3], some 0⟩, ⟨[4, 5], some 0⟩⟩ [0]).get? (1 + 1) =
      some (.finishCall .system) := by
  exact (C3_single_flight 2 ⟨⟨[1, 2, 3], some 0⟩, ⟨[4, 5], some 0⟩⟩ [0]).2
    1 4 .system .microphone (by decide) (by decide) (by decide)

/-- Computation rule for `tickSource` when a window is ready. -/
theorem tickSource_eq_pos (W : ℕ) (src : AudioSource) (st : SourceBuffer) (now : ℚ)
    (w : List Sample) (ts : ℚ) (st2 : SourceBuffer)
    (h : tryDrain W st now = (some (w, ts), st2)) :
    tickSource W src st now =
      ([.drainEv src w, .startCall src, .finishCall src], st2) := by
  unfold tickSource
  rw [h]

/-- Computation rule for `tick` from the two per-source results. -/
theorem tick_eq (W : ℕ) (s : ServiceBuffers) (now : ℚ)
    (e1 : List SchedEvent) (b1 : SourceBuffer)
    (e2 : List SchedEvent) (b2 : SourceBuffer)
    (h1 : tickSource W .system s.system now = (e1, b1))
    (h2 : tickSource W .microphone s.microphone now = (e2, b2)) :
    tick W s now = (e1 ++ e2, ⟨b1, b2⟩) := by
  unfold tick
  rw [h1, h2]

/-- A single-tick run produces exactly that tick's events. -/
theorem runTicks_one (W : ℕ) (s : ServiceBuffers) (now : ℚ) :
    runTicks W s [now] = (tick W s now).1 := by
  simp [runTicks]

/-- C3 counterexample: with both sources holding a full 32000-sample
window at the same tick, the generated trace serializes the two calls
completely — the microphone window, although ready when the tick fired,
is drained (index 3) and transcribed (indices 4–5) only after the system
call has finished (index 2). So transcription calls for different sources
never overlap, and an in-progress call does block the draining of the
other source, contrary to the claim. -/
theorem C3_counterexample :
    runTicks BUFFER_THRESHOLD
      ⟨⟨List.replicate 32000 0, some 0⟩, ⟨List.replicate 32000 0, some 0⟩⟩ [0] =
    [.drainEv .system (List.replicate 32000 0), .startCall .system,
     .finishCall .system,
     .drainEv .microphone (List.replicate 32000 0), .startCall .microphone,
     .finishCall .microphone] := by
  have h : tryDrain BUFFER_THRESHOLD ⟨List.replicate 32000 (0 : ℚ), some 0⟩ 0 =
      (some (List.replicate 32000 0, 0), ⟨[], none⟩) := by
    simp only [tryDrain, BUFFER_THRESHOLD, List.length_replicate, le_refl, if_true,
      List.take_replicate, List.drop_replicate, Nat.min_self, Nat.sub_self,
      List.replicate_zero, List.isEmpty_nil, Option.getD_some, if_pos]
  have hs : tickSource BUFFER_THRESHOLD .system
      ⟨List.replicate 32000 (0 : ℚ), some 0⟩ 0 =
      ([.drainEv .system (List.replicate 32000 0), .startCall .system,
        .finishCall .system], ⟨[], none⟩) :=
    tickSource_eq_pos _ .system _ 0 _ _ _ h
  have hm : tickSource BUFFER_THRESHOLD .microphone
      ⟨List.replicate 32000 (0 : ℚ), some 0⟩ 0 =
      ([.drainEv .microphone (List.replicate 32000 0), .startCall .microphone,
        .finishCall .microphone], ⟨[], none⟩) :=
    tickSource_eq_pos _ .microphone _ 0 _ _ _ h
  have ht := tick_eq BUFFER_THRESHOLD
    ⟨⟨List.replicate 32000 (0 : ℚ), some 0⟩,
     ⟨List.replicate 32000 (0 : ℚ), some 0⟩⟩ 0 _ _ _ _ hs hm
  rw [runTicks_one, ht]
  rfl

/-- C4: `_process_message` executes at most one registered handler per
inbound message, whatever the registration state; for each of the four
tags with both a dedicated (Phase 2) and a legacy/fallback (Phase 1)
handler slot (`kb_list`, `kb_add`, `kb_update`, `kb_remove`), if the
dedicated handler is registered then it alone executes (the fallback is
never invoked), and the fallback executes only when the dedicated handler
is not registered. -/
theorem C4_handler_precedence :
    (∀ h t, (executedHandlers h t).length ≤ 1) ∧
    (∀ h : Handlers, h.kbListPaginatedHandler = true →
      executedHandlers h .kbList = [.kbListPaginatedHandler]) ∧
    (∀ h : Handlers, HandlerId.kbListHandler ∈ executedHandlers h .kbList →
      h.kbListPaginatedHandler = false) ∧
    (∀ h : Handlers, h.s3KbAddHandler = true →
      executedHandlers h .kbAdd = [.s3KbAddHandler]) ∧
    (∀ h : Handlers, HandlerId.kbAddHandler ∈ executedHandlers h .kbAdd →
      h.s3KbAddHandler = false) ∧
    (∀ h : Handlers, h.s3KbUpdateHandler = true →
      executedHandlers h .kbUpdate = [.s3KbUpdateHandler]) ∧
    (∀ h : Handlers, HandlerId.kbUpdateHandler ∈ executedHandlers h .kbUpdate →
      h.s3KbUpdateHandler = false) ∧
    (∀ h : Handlers, h.s3KbRemoveHandler = true →
      executedHandlers h .kbRemove = [.s3KbRemoveHandler]) ∧
    (∀ h : Handlers, HandlerId.kbRemoveHandler ∈ executedHandlers h .kbRemove →
      h.s3KbRemoveHandler = false) := by
  refine ⟨?_, ?_, ?_, ?_, ?_, ?_, ?_, ?_, ?_⟩
  · intro h t
    cases t <;> dsimp only [executedHandlers] <;>
      first
        | simp
        | (split_ifs <;> simp)
  · intro h hreg; simp [executedHandlers, hreg]
  · intro h hmem
    by_cases hp : h.kbListPaginatedHandler = true
    · simp [executedHandlers, hp] at hmem
    · simpa using hp
  · intro h hreg; simp [executedHandlers, hreg]
  · intro h hmem
    by_cases hp : h.s3KbAddHandler = true
    · simp [executedHandlers, hp] at hmem
    · simpa using hp
  · intro h hreg; simp [executedHandlers, hreg]
  · intro h hmem
    by_cases hp : h.s3KbUpdateHandler = true
    · simp [executedHandlers, hp] at hmem
    · simpa using hp
  · intro h hreg; simp [executedHandlers, hreg]
  · intro h hmem
    by_cases hp : h.s3KbRemoveHandler = true
    · simp [executedHandlers, hp] at hmem
    · simpa using hp

/-- Witness for C4 at a concrete registration state: with every slot
registered, `kb_list` executes only the paginated handler and `kb_add`
only the S3 handler. -/
theorem C4_handler_precedence_witness :
    executedHandlers ⟨true, true, true, true, true, true, true, true, true,
      true, true, true, true⟩ .kbList = [.kbListPaginatedHandler] ∧
    executedHandlers ⟨true, true, true, true, true, true, true, true, true,
      true, true, true, true⟩ .kbAdd = [.s3KbAddHandler] := by
  exact ⟨C4_handler_precedence.2.1 _ rfl, C4_handler_precedence.2.2.2.1 _ rfl⟩

/-- C5: a frame whose decoding fails (malformed JSON, or any decode
error such as an unknown type tag) is skipped and the read loop
processes the remaining frames of the connection exactly as it would have
without the bad frame (no crash, connection not dropped); and an unknown
tag string makes `IPCMessage.from_json` raise a decode error rather than
accept the frame. -/
theorem C5_decode_error_isolated :
    (∀ (pre post : List (Option Json)) (bad : Option Json) (e : DecodeErr),
      decodeLine bad = .error e →
      readLoop (pre ++ bad :: post) = readLoop pre ++ readLoop post) ∧
    (∀ (fields : List (String × Json)) (s : String),
      jlookup "type" fields = some (.str s) →
      MessageType.ofString s = none →
      IPCMessage.fromJson (.obj fields) = .error (.unknownTag s)) := by
  constructor
  · intro pre post bad e hbad
    induction pre with
    | nil => simp [readLoop, hbad]
    | cons line rest ih =>
      cases hline : decodeLine line with
      | ok m => simp [readLoop, hline, ih]
      | error e2 => simp [readLoop, hline, ih]
  · intro fields s h1 h2
    simp [IPCMessage.fromJson, h1, h2]

/-- Witness for C5 at concrete frames: a malformed-JSON frame between a
`ping` frame and a `pong` frame is skipped without affecting either, and
the unknown tag string `bogus` is a decode error. -/
theorem C5_decode_error_isolated_witness :
    readLoop ([some (.obj [("type", Json.str "ping"), ("payload", .obj [])])] ++
        none :: [some (.obj [("type", Json.str "pong"), ("payload", .obj [])])]) =
      readLoop [some (.obj [("type", Json.str "ping"), ("payload", .obj [])])] ++
        readLoop [some (.obj [("type", Json.str "pong"), ("payload", .obj [])])] ∧
    IPCMessage.fromJson (.obj [("type", Json.str "bogus")]) =
      .error (.unknownTag "bogus") := by
  exact ⟨C5_decode_error_isolated.1 _ _ none .badJson rfl,
    C5_decode_error_isolated.2 [("type", Json.str "bogus")] "bogus" rfl rfl⟩

/-- The write loop of `broadcast` delivers the encoded data to exactly
the non-raising clients, in order, and logs one error per raising
client. -/
theorem broadcastLoop_spec (data : Json) (clients : List Conn) :
    broadcastLoop data clients =
      ((clients.filter (fun c => !c.failing)).map (fun c => (c.id, data)),
       (clients.filter (fun c => c.failing)).length) := by
  induction clients with
  | nil => rfl
  | cons c rest ih =>
    by_cases hc : c.failing <;>
      simp [broadcastLoop, ih, List.filter_cons, hc]

/-- C6 (amended): `broadcast` encodes the message once and writes that
same encoding to every open connection; a write failure on one connection
is logged and does not prevent delivery of the message to the remaining
connections — but the failing connection is NOT removed from the
connection set and NOT closed by `broadcast` (its removal and close
happen only when its own read loop terminates). -/
theorem C6_broadcast_isolation (clients : List Conn) (message : IPCMessage) :
    (broadcast clients message).writes =
      (clients.filter (fun c => !c.failing)).map (fun c => (c.id, message.toJson)) ∧
    (broadcast clients message).clientsAfter = clients ∧
    (broadcast clients message).closed = [] ∧
    (broadcast clients message).errorsLogged =
      (clients.filter (fun c => c.failing)).length := by
  refine ⟨?_, rfl, rfl, ?_⟩ <;> simp [broadcast, broadcastLoop_spec]

/-- C6 counterexample: with a failing client `0` followed by a healthy
client `1`, broadcasting still delivers the (once-encoded) message to
client `1`, but client `0` remains in the connection set and nothing is
closed — contradicting the claim that a connection whose write fails is
removed and closed. -/
theorem C6_counterexample :
    (broadcast [⟨0, true⟩, ⟨1, false⟩] ⟨.ping, .obj []⟩).writes =
      [(1, IPCMessage.toJson ⟨.ping, .obj []⟩)] ∧
    (broadcast [⟨0, true⟩, ⟨1, false⟩] ⟨.ping, .obj []⟩).clientsAfter =
      [⟨0, true⟩, ⟨1, false⟩] ∧
    (broadcast [⟨0, true⟩, ⟨1, false⟩] ⟨.ping, .obj []⟩).closed = [] := by
  exact ⟨rfl, rfl, rfl⟩

/-- C7: `_transcribe_buffer` emits a result to the callback iff the
engine call succeeds with non-empty text; success with empty text emits
nothing and logs no error; an engine exception is caught (never
propagates — the function is total), logged, and emits nothing; and each
window is processed by its own independent call, so a failure on one
window leaves the processing of every later window unchanged. -/
theorem C7_per_window_isolation (engine : EngineBehavior)
    (samples : List Sample) (source : AudioSource) (timestamp : ℚ) :
    (∀ r, (transcribeBuffer engine samples source timestamp).emitted = some r ↔
      engine samples source timestamp = .ok r ∧ r.text ≠ "") ∧
    (∀ r, engine samples source timestamp = .ok r → r.text = "" →
      transcribeBuffer engine samples source timestamp =
        { emitted := none, errorLogged := false }) ∧
    (∀ e, engine samples source timestamp = .error e →
      transcribeBuffer engine samples source timestamp =
        { emitted := none, errorLogged := true }) ∧
    (∀ (s2 : List Sample) (src2 : AudioSource) (t2 : ℚ)
      (rest : List (List Sample × AudioSource × ℚ)),
      processWindows engine ((samples, source, timestamp) :: (s2, src2, t2) :: rest) =
        transcribeBuffer engine samples source timestamp ::
          transcribeBuffer engine s2 src2 t2 :: processWindows engine rest) := by
  refine ⟨?_, ?_, ?_, ?_⟩
  · intro r
    cases hE : engine samples source timestamp with
    | ok r2 =>
      by_cases ht : r2.text = "" <;>
        simp [transcribeBuffer, hE, ht] <;> rintro rfl <;> simp_all
    | error e => simp [transcribeBuffer, hE]
  · intro r hE ht
    simp [transcribeBuffer, hE, ht]
  · intro e hE
    simp [transcribeBuffer, hE]
  · intro s2 src2 t2 rest
    rfl

/-- Witness for C7 at concrete inputs: a succeeding engine with non-empty
text emits exactly its result. -/
theorem C7_per_window_isolation_witness :
    (transcribeBuffer (fun _ _ _ => .ok ⟨"hello", .system, 0, 1⟩)
      [1] .system 0).emitted = some ⟨"hello", .system, 0, 1⟩ := by
  exact ((C7_per_window_isolation (fun _ _ _ => .ok ⟨"hello", .system, 0, 1⟩)
    [1] .system 0).1 ⟨"hello", .system, 0, 1⟩).mpr ⟨rfl, by decide⟩

/-- C8: the shutdown flush empties every source's buffer (regardless of
the 32000-sample window size — the whole buffer is taken, however long or
short), and makes exactly one final transcription call per source whose
buffered length is at least `MIN_BUFFER_SAMPLES = 8000` (0.5 s at
16 kHz), passing that source's entire remaining buffer and its recorded
start timestamp; sources with shorter buffers are drained without being
transcribed. -/
theorem C8_flush_drains_all (s : ServiceBuffers) (now : ℚ) :
    (flushBuffers s now).2 = ⟨⟨[], none⟩, ⟨[], none⟩⟩ ∧
    (flushBuffers s now).1 =
      (if MIN_BUFFER_SAMPLES ≤ s.system.samples.length then
        [(.system, s.system.samples, s.system.timestamp.getD now)] else []) ++
      (if MIN_BUFFER_SAMPLES ≤ s.microphone.samples.length then
        [(.microphone, s.microphone.samples, s.microphone.timestamp.getD now)]
       else []) := by
  constructor <;>
    by_cases h1 : MIN_BUFFER_SAMPLES ≤ s.system.samples.length <;>
    by_cases h2 : MIN_BUFFER_SAMPLES ≤ s.microphone.samples.length <;>
    simp [flushBuffers, flushSource, h1, h2]

/-- The number of words produced by the Base64 sample decoding is one per
4 bytes (`num_samples = len(samples_bytes) // 4`). -/
theorem bytesToWordsLE_length :
    ∀ bs : List ℕ, (bytesToWordsLE bs).length = bs.length / 4
  | b0 :: b1 :: b2 :: b3 :: rest => by
    have ih := bytesToWordsLE_length rest
    show (bytesToWordsLE (b0 :: b1 :: b2 :: b3 :: rest)).length =
      (b0 :: b1 :: b2 :: b3 :: rest).length / 4
    simp only [bytesToWordsLE, List.length_cons, ih]
    omega
  | [] => rfl
  | [_] => by simp [bytesToWordsLE]
  | [_, _] => by simp [bytesToWordsLE]
  | [_, _, _] => by simp [bytesToWordsLE]

/-- C10: when `samples_base64` is present in an `audio_data` payload, the
decoded message is computed from it alone — the raw `samples` field is
ignored entirely — with the byte string cut into 4-byte groups, each
assembled little-endian and interpreted as a float32 (one sample per 4
bytes); when neither field is present, decoding succeeds with an empty
sample list instead of raising. -/
theorem C10_base64_precedence (f32 : ℕ → ℚ) (p : AudioPayload) :
    (∀ bytes, p.samples_base64 = some bytes →
      (∀ other, AudioDataMessage.fromPayload f32 { p with samples := other } =
        AudioDataMessage.fromPayload f32 p) ∧
      (bytes.length % 4 = 0 →
        AudioDataMessage.fromPayload f32 p =
          .ok { samples := (bytesToWordsLE bytes).map f32
                sample_rate := p.sample_rate
                timestamp := p.timestamp
                source := p.source })) ∧
    (p.samples_base64 = none → p.samples = none →
      AudioDataMessage.fromPayload f32 p =
        .ok { samples := [], sample_rate := p.sample_rate
              timestamp := p.timestamp, source := p.source }) ∧
    (∀ bs : List ℕ, (bytesToWordsLE bs).length = bs.length / 4) := by
  refine ⟨?_, ?_, bytesToWordsLE_length⟩
  · intro bytes hb
    constructor
    · intro other
      simp [AudioDataMessage.fromPayload, hb]
    · intro hlen
      simp [AudioDataMessage.fromPayload, hb, hlen]
  · intro hb hs
    simp [AudioDataMessage.fromPayload, hb, hs]

/-- Witness for C10 at a concrete payload carrying both fields: the
8-byte Base64 content decodes to the two words 1 and 2 (little-endian)
and the raw `samples` field `[99]` is ignored. -/
theorem C10_base64_precedence_witness :
    AudioDataMessage.fromPayload (fun w => (w : ℚ))
      ⟨some [1, 0, 0, 0, 2, 0, 0, 0], some [99], 16000, 0, "system"⟩ =
      .ok ⟨[1, 2], 16000, 0, "system"⟩ := by
  have h := ((C10_base64_precedence (fun w => (w : ℚ))
    ⟨some [1, 0, 0, 0, 2, 0, 0, 0], some [99], 16000, 0, "system"⟩).1
    [1, 0, 0, 0, 2, 0, 0, 0] rfl).2 (by decide)
  rw [h]
  norm_num [bytesToWordsLE]

end DevEcho
